import Mathlib

/-!
Verification of the aura negotiation core: a shallow embedding of the
Safety Guard (proteins/guard), the outbound membrane (hive/membrane/main.py),
the failure degradation of the transformer (hive/transformer/main.py), the
settlement status machine (hive/services/market.py), the metabolic loop and
skill registry (packages/aura-core/src/aura_core/metabolism.py), and the
Solana payment verifier (proteins/crypto/_internal.py).

Prices and amounts are modelled as exact rationals; Python float rounding
`round(x, 2)` is modelled as round-half-even on the exact value.  Python
exceptions are modelled with `Except String`.
-/

namespace Aura

/-- Character-wise lowercasing of a string; models Python `str.lower()` for
the ASCII strings the code compares. -/
def strLower (s : String) : String := ⟨s.data.map Char.toLower⟩

/-- Bool test that `pat` occurs as a contiguous sublist; used to model
the Python `pat in s` test on strings. -/
def listContains (pat : List Char) : List Char → Bool
  | [] => pat.isPrefixOf []
  | c :: rest => pat.isPrefixOf (c :: rest) || listContains pat rest

/-- The Python substring operator `pat in s`. -/
def strContains (s pat : String) : Bool := listContains pat.data s.data

/-- Integer number of cents after round-half-even, models Python
`round(x, 2)` (round-half-even) applied to the exact rational value. -/
def round2Int (q : ℚ) : ℤ :=
  let x := q * 100
  let f := ⌊x⌋
  let r := x - f
  if r < 1/2 then f
  else if 1/2 < r then f + 1
  else if f % 2 = 0 then f else f + 1

/-- Python `round(x, 2)` on the exact rational value. -/
def round2 (q : ℚ) : ℚ := (round2Int q : ℚ) / 100

/-- The decision actions of the system (aura_core ActionType / legacy
action strings). -/
inductive Action where
  | accept
  | counter
  | reject
  | ui_required
  | error
deriving DecidableEq

/-- The action rendered as its legacy string, as used in f-strings. -/
def actionText : Action → String
  | .accept => "accept"
  | .counter => "counter"
  | .reject => "reject"
  | .ui_required => "ui_required"
  | .error => "error"

/-- config.policy.SafetySettings (module not in the tree; its
`min_profit_margin` field is read by the guard code). -/
structure SafetySettings where
  min_profit_margin : ℚ
deriving DecidableEq

/-- DEFAULT_MIN_MARGIN = 0.1 in proteins/guard/main.py. -/
def DEFAULT_MIN_MARGIN : ℚ := 1/10

/-- The economic context dict handed to the guard:
`{"floor_price": ..., "internal_cost": ...}` with Python `.get` defaults 0.0. -/
structure GuardContext where
  floor_price : ℚ := 0
  internal_cost : ℚ := 0
deriving DecidableEq

/-- The decision dict handed to the guard: `{"action": ..., "price": ...}`. -/
structure GuardDecision where
  action : Action
  price : ℚ := 0
deriving DecidableEq

/-- OutputGuard.validate_decision from
core/src/hive/proteins/guard/enzymes/guard_logic.py.  A raised
SafetyViolation is modelled as `.error` with the exception text. -/
def validate_decision (settings : Option SafetySettings)
    (decision : GuardDecision) (context : GuardContext) : Except String Bool :=
  if decision.action ≠ .accept ∧ decision.action ≠ .counter then .ok true
  else if decision.price ≤ 0 then .error "Invalid offered price"
  else if decision.price < context.floor_price then .error "Floor price violation"
  else
    let margin := (decision.price - context.internal_cost) / decision.price
    match settings with
    | none => .error "Cannot validate margin: safety settings not provided."
    | some s =>
      if margin < s.min_profit_margin then .error "Minimum profit margin violation"
      else .ok true

/-- GuardSkill._calculate_safe_price from core/src/hive/proteins/guard/main.py. -/
def calculate_safe_price (settings : Option SafetySettings)
    (context : GuardContext) (reason : String) : ℚ :=
  let floor := context.floor_price
  if strContains (strLower reason) "margin" then
    let min_m := (settings.map SafetySettings.min_profit_margin).getD DEFAULT_MIN_MARGIN
    let min_m2 := if 1 ≤ min_m then DEFAULT_MIN_MARGIN else min_m
    round2 (floor / (1 - min_m2))
  else
    round2 (floor * (105/100))

/-- The error-message-to-code mapping in the `except SafetyViolation` branch
of GuardSkill.execute. -/
def violation_code (err_msg : String) : String :=
  if strContains (strLower err_msg) "margin" then "MIN_MARGIN_VIOLATION"
  else if strContains (strLower err_msg) "floor" then "FLOOR_PRICE_VIOLATION"
  else "SAFETY_VIOLATION"

/-- The Observation envelope returned by GuardSkill.execute (the
`data` dict fields are lifted to options). -/
structure GuardObs where
  success : Bool
  error : Option String := none
  error_code : Option String := none
  safe_price : Option ℚ := none
deriving DecidableEq

/-- GuardSkill.execute with intent `validate_decision`. -/
def guard_validate (settings : Option SafetySettings)
    (decision : GuardDecision) (context : GuardContext) : GuardObs :=
  match validate_decision settings decision context with
  | .ok _ => { success := true }
  | .error msg =>
    let code := violation_code msg
    { success := false, error := some msg, error_code := some code,
      safe_price := some (calculate_safe_price settings context code) }

/-- GuardSkill.execute with intent `get_safe_price`. -/
def guard_get_safe_price (settings : Option SafetySettings)
    (context : GuardContext) (reason : String) : GuardObs :=
  { success := true, safe_price := some (calculate_safe_price settings context reason) }

/-- The override metadata dict written by HiveMembrane._override_with_safe_offer
(keys original_decision, original_price, override_reason). -/
structure OverrideMeta where
  original_decision : Action
  original_price : ℚ
  override_reason : String
deriving DecidableEq

/-- aura_core.types.IntentAction.  `metadata` holds the membrane override
dict when present; `error` is the extra field of the FailureIntent subclass. -/
structure IntentAction where
  action : Action
  price : ℚ
  message : String
  thought : String := ""
  metadata : Option OverrideMeta := none
  error : Option String := none
deriving DecidableEq

/-- aura_core.types.FailureIntent: action error, price 0.0 and a fixed
message, carrying the error text. -/
def FailureIntent (err : String) : IntentAction :=
  { action := .error, price := 0,
    message := "Internal processing error. Defaulting to safe state.",
    error := some err }

/-- A decimal rendering of a rational for the f-string price interpolations;
the exact text is irrelevant to the properties proved here. -/
def ratText (q : ℚ) : String := toString q.num ++ "/" ++ toString q.den

/-- The parts of aura_core.types.HiveContext that the outbound membrane
reads: `item_data["floor_price"]` (default 0.0) and
`item_data["meta"]["internal_cost"]` (absent when `none`). -/
structure HiveContextE where
  floor_price : ℚ := 0
  internal_cost : Option ℚ := none
deriving DecidableEq

/-- HiveMembrane._override_with_safe_offer from core/src/hive/membrane/main.py. -/
def override_with_safe_offer (original : IntentAction) (safe_price : ℚ)
    (reason : String) : IntentAction :=
  let rounded := round2 safe_price
  let base := "Membrane Override: " ++ reason ++ ". LLM suggested "
    ++ actionText original.action ++ " at " ++ ratText original.price ++ "."
  let new_thought := if original.thought = "" then base
    else original.thought ++ " | " ++ base
  { action := .counter, price := rounded,
    message := "I\x27ve reached my final limit for this item. My best offer is $"
      ++ ratText rounded ++ ".",
    thought := new_thought,
    metadata := some { original_decision := original.action,
                       original_price := original.price,
                       override_reason := reason } }

/-- The DLP rewrite inside HiveMembrane.inspect_outbound (lines 74-77):
a message containing the literal token "floor_price" (case-insensitively)
is replaced and an audit note appended to the thought. -/
def dlp_step (decision : IntentAction) : IntentAction :=
  if strContains (strLower decision.message) "floor_price" then
    { decision with message := "I cannot disclose internal pricing details.",
                    thought := decision.thought ++ " [MEMBRANE: DLP block]" }
  else decision

/-- HiveMembrane.inspect_outbound from core/src/hive/membrane/main.py.
`registry` models whether a SkillRegistry holding the guard protein was
attached to the membrane (`self.registry`). -/
def inspect_outbound (settings : Option SafetySettings) (registry : Bool)
    (decision : IntentAction) (context : HiveContextE) : IntentAction :=
  let floor_price := context.floor_price
  if decision.action = .error then
    let safe_price :=
      if registry then
        ((guard_get_safe_price settings { floor_price := floor_price }
          "FAILURE_RECOVERY").safe_price).getD (floor_price * (105/100))
      else floor_price * (105/100)
    override_with_safe_offer decision safe_price "FAILURE_RECOVERY"
  else
    let decision := dlp_step decision
    if decision.action ≠ .accept ∧ decision.action ≠ .counter then decision
    else if registry = false then decision
    else
      let internal_cost := context.internal_cost.getD floor_price
      let obs := guard_validate settings
        { action := decision.action, price := decision.price }
        { floor_price := floor_price, internal_cost := internal_cost }
      if obs.success = false then
        override_with_safe_offer decision
          (obs.safe_price.getD (floor_price * (105/100)))
          (obs.error_code.getD "SAFETY_VIOLATION")
      else decision

/-- The raw decision dict returned by the reasoning protein
(`obs.data` in AuraTransformer.think). -/
structure RawDecision where
  action : Action
  price : ℚ
  message : String
  thought : String := ""
deriving DecidableEq

/-- AuraTransformer.think from core/src/hive/transformer/main.py, on the
reasoning-protein path: `.error` models either a failed reasoning
Observation or an exception; both degrade to a FailureIntent. -/
def think (reasoning : Except String RawDecision) : IntentAction :=
  match reasoning with
  | .error e => FailureIntent e
  | .ok r =>
    { action := r.action, price := r.price, message := r.message,
      thought := if r.thought = "" then "" else "<think>\n" ++ r.thought ++ "\n</think>" }

/-- LockedDeal status (hive/services/market.py, storage DealStatus). -/
inductive DealStatus where
  | pending
  | paid
  | expired
deriving DecidableEq

/-- The status string as stored/returned by the service. -/
def status_text : DealStatus → String
  | .pending => "PENDING"
  | .paid => "PAID"
  | .expired => "EXPIRED"

/-- The fields of a LockedDeal that check_status consults. -/
structure Deal where
  status : DealStatus
  expires_at : ℤ
deriving DecidableEq

/-- MarketService.check_status from core/src/hive/services/market.py, reduced
to its status logic: input is the loaded deal (none = not found), the
current time, and whether verify_payment found a proof; output is the
persisted deal state after the call and the reported status string. -/
def check_status (deal : Option Deal) (now : ℤ) (payment_match : Bool) :
    Option Deal × String :=
  match deal with
  | none => (none, "NOT_FOUND")
  | some d =>
    if d.status = .pending ∧ now > d.expires_at then
      (some { d with status := .expired }, "EXPIRED")
    else if d.status = .paid then (some d, "PAID")
    else if d.status = .pending then
      if payment_match then (some { d with status := .paid }, "PAID")
      else (some d, "PENDING")
    else (some d, status_text d.status)

/-- aura_core.types.Observation, reduced to the fields the pipeline
claims mention. -/
structure Observation where
  success : Bool
  error : Option String := none
  event_type : String := ""
deriving DecidableEq

/-- SkillRegistry.execute from packages/aura-core/src/aura_core/metabolism.py:
looks the skill up by name and converts a raised exception into a failed
Observation.  A skill is a function from intent and params to a result,
`.error` modelling a raised exception. -/
def registry_execute {π : Type} (skills : List (String × (String → π → Except String Observation)))
    (skill_name intent : String) (params : π) : Observation :=
  match skills.lookup skill_name with
  | none => { success := false, error := some ("Skill \x27" ++ skill_name ++ "\x27 not found") }
  | some skill =>
    match skill intent params with
    | .ok obs => obs
    | .error e => { success := false, error := some e }

/-- MetabolicLoop.execute from packages/aura-core/src/aura_core/metabolism.py
(the hive subclass in core/src/hive/metabolism has the same stage structure).
Each stage is a function returning `Except String`, `.error` modelling a
raised exception; only the vitals fetch is wrapped in try/except. -/
def loop_execute {σ γ υ : Type}
    (inspect_inbound : σ → Except String σ)
    (perceive : σ → Except String γ)
    (get_vitals : Except String υ)
    (set_vitals : γ → υ → γ)
    (think_stage : γ → Except String IntentAction)
    (inspect_out : IntentAction → γ → Except String IntentAction)
    (act : IntentAction → γ → Except String Observation)
    (pulse : Observation → Except String Unit)
    (signal : σ) : Except String Observation := do
  let signal2 ← inspect_inbound signal
  let context ← perceive signal2
  let context2 := match get_vitals with
    | .ok v => set_vitals context v
    | .error _ => context
  let decision ← think_stage context2
  let decision2 ← inspect_out decision context2
  let observation ← act decision2 context2
  let _ ← pulse observation
  return observation

/-- AMOUNT_TOLERANCE = 0.0001 in proteins/crypto/_internal.py. -/
def AMOUNT_TOLERANCE : ℚ := 1/10000

/-- The limit passed to getSignaturesForAddress in SolanaProvider._get_signatures. -/
def SIGNATURE_LIMIT : ℕ := 20

/-- A parsed Solana instruction as inspected by the verifier: an spl-memo
instruction with its parsed text, an spl-token transfer (parsed type
"transfer") with destination, raw amount, authority and source, or
anything else. -/
inductive Instruction where
  | memoInstr (parsed : String)
  | tokenTransfer (destination : String) (amount : ℤ)
      (authority : Option String) (source : String)
  | otherInstr
deriving DecidableEq

/-- The parts of a getTransaction result that the verifier reads. -/
structure SolTx where
  instructions : List Instruction
  accountKeys : List String
  preBalances : List ℤ
  postBalances : List ℤ
  slot : ℕ
  blockTime : Option ℤ
deriving DecidableEq

/-- One element of the getSignaturesForAddress result, paired with what
getTransaction returns for it (none when the lookup fails). -/
structure SigEntry where
  signature : String
  tx : Option SolTx
deriving DecidableEq

/-- The ledger identities of the provider: its receiving address
(`str(self.keypair.pubkey())`) and its derived USDC associated token account. -/
structure ProviderCfg where
  myAddr : String
  usdcTokenAccount : String
deriving DecidableEq

/-- The memo scan at the top of SolanaProvider._check_match: some
instruction is spl-memo with parsed text equal to the expected memo. -/
def check_memo (tx : SolTx) (memo : String) : Bool :=
  tx.instructions.any fun i =>
    match i with
    | .memoInstr parsed => parsed = memo
    | _ => false

/-- The sender scan inside SolanaProvider._check_sol: the account other than
index `skip` with the largest positive balance decrease (first on ties). -/
def find_sender (keys : List String) (pre post : List ℤ) (skip : ℕ) : String :=
  (keys.enum.foldl
    (fun acc jk =>
      if jk.1 = skip then acc
      else
        let d := pre.getD jk.1 0 - post.getD jk.1 0
        if d > acc.1 then (d, jk.2) else acc)
    ((0 : ℤ), "")).2

/-- The indexed account scan of SolanaProvider._check_sol: the first index
holding the receiving address whose lamport balance delta is within
tolerance of the expected amount. -/
def check_sol_go (cfg : ProviderCfg) (tx : SolTx) (amt : ℚ) :
    List (ℕ × String) → Bool × String
  | [] => (false, "")
  | (i, k) :: rest =>
    if k = cfg.myAddr ∧
        |((tx.postBalances.getD i 0 - tx.preBalances.getD i 0 : ℤ) : ℚ) / 1000000000 - amt|
          < AMOUNT_TOLERANCE then
      (true, find_sender tx.accountKeys tx.preBalances tx.postBalances i)
    else check_sol_go cfg tx amt rest

/-- SolanaProvider._check_sol. -/
def check_sol (cfg : ProviderCfg) (tx : SolTx) (amt : ℚ) : Bool × String :=
  check_sol_go cfg tx amt tx.accountKeys.enum

/-- The instruction scan of SolanaProvider._check_usdc: the first spl-token
transfer to the associated token account of the provider whose amount is within
tolerance; sender is the authority, falling back to the source. -/
def check_usdc_go (cfg : ProviderCfg) (amt : ℚ) : List Instruction → Bool × String
  | [] => (false, "")
  | .tokenTransfer dest amount auth source :: rest =>
    if dest = cfg.usdcTokenAccount ∧ |(amount : ℚ) / 1000000 - amt| < AMOUNT_TOLERANCE then
      (true, auth.getD source)
    else check_usdc_go cfg amt rest
  | _ :: rest => check_usdc_go cfg amt rest

/-- SolanaProvider._check_usdc. -/
def check_usdc (cfg : ProviderCfg) (tx : SolTx) (amt : ℚ) : Bool × String :=
  check_usdc_go cfg amt tx.instructions

/-- SolanaProvider._check_match. -/
def check_match (cfg : ProviderCfg) (tx : SolTx) (amt : ℚ) (memo curr : String) :
    Bool × String :=
  if check_memo tx memo = false then (false, "")
  else if curr = "SOL" then check_sol cfg tx amt
  else check_usdc cfg tx amt

/-- The PaymentProof dict built by SolanaProvider._get_proof. -/
structure PaymentProof where
  transaction_hash : String
  block_number : String
  from_address : String
  confirmed_at : ℤ
deriving DecidableEq

/-- SolanaProvider._get_proof; `now` models datetime.now for transactions
without a (truthy) blockTime. -/
def get_proof (tx : SolTx) (sig : String) (addr : String) (now : ℤ) : PaymentProof :=
  { transaction_hash := sig,
    block_number := toString tx.slot,
    from_address := if addr = "" then "unknown" else addr,
    confirmed_at := match tx.blockTime with
      | some t => if t = 0 then now else t
      | none => now }

/-- Whether a fetched signature matches: its transaction loads and
_check_match succeeds.  This names the loop condition of verify_payment. -/
def matches_entry (cfg : ProviderCfg) (amt : ℚ) (memo curr : String)
    (e : SigEntry) : Bool :=
  match e.tx with
  | none => false
  | some tx => (check_match cfg tx amt memo curr).1

/-- The signature loop of SolanaProvider.verify_payment over an already
fetched signature list: skip failed lookups, return the proof of the first
matching transaction. -/
def verify_from (cfg : ProviderCfg) (amt : ℚ) (memo curr : String) (now : ℤ) :
    List SigEntry → Option PaymentProof
  | [] => none
  | e :: rest =>
    match e.tx with
    | none => verify_from cfg amt memo curr now rest
    | some tx =>
      let m := check_match cfg tx amt memo curr
      if m.1 then some (get_proof tx e.signature m.2 now)
      else verify_from cfg amt memo curr now rest

/-- SolanaProvider._get_signatures: the RPC getSignaturesForAddress call with
`{"limit": 20}`; modelled over the full signature history of the chain for the
receiving address, most recent first, of which the node returns the first
SIGNATURE_LIMIT entries. -/
def get_signatures (chain : List SigEntry) : List SigEntry :=
  chain.take SIGNATURE_LIMIT

/-- SolanaProvider.verify_payment: fetch the recent signatures and scan them. -/
def verify_payment (cfg : ProviderCfg) (amt : ℚ) (memo curr : String) (now : ℤ)
    (chain : List SigEntry) : Option PaymentProof :=
  verify_from cfg amt memo curr now (get_signatures chain)

/-- A concrete finalized USDC transaction used to evaluate the verifier:
memo "m8", an spl-token transfer of 850000000 raw units (850 USDC) to the
token account "ATA1", authority "SENDER". -/
def txUsdc : SolTx :=
  { instructions := [.memoInstr "m8",
      .tokenTransfer "ATA1" 850000000 (some "SENDER") "SRC"],
    accountKeys := [], preBalances := [], postBalances := [],
    slot := 7, blockTime := some 99 }

/-- The fetched-signature entry for txUsdc. -/
def entryUsdc : SigEntry := { signature := "sigA", tx := some txUsdc }

/-- A fetched-signature entry whose transaction lookup failed. -/
def entryStale : SigEntry := { signature := "old", tx := none }

/-- A concrete provider configuration used to evaluate the verifier. -/
def cfgFix : ProviderCfg := { myAddr := "MYADDR", usdcTokenAccount := "ATA1" }

/-! Shared lemmas. -/

theorem round2Int_intCast_div (n : ℤ) : round2Int ((n : ℚ) / 100) = n := by
  unfold round2Int
  have h100 : ((n : ℚ) / 100) * 100 = (n : ℚ) := by field_simp
  simp only [h100, Int.floor_intCast, sub_self]
  norm_num

theorem round2_idem (q : ℚ) : round2 (round2 q) = round2 q := by
  unfold round2
  rw [round2Int_intCast_div]

theorem isPrefixOf_append {p a : List Char} (b : List Char)
    (h : p.isPrefixOf a = true) : p.isPrefixOf (a ++ b) = true := by
  induction p generalizing a with
  | nil => simp [List.isPrefixOf]
  | cons x xs ih =>
    cases a with
    | nil => simp [List.isPrefixOf] at h
    | cons y ys =>
      simp only [List.isPrefixOf, Bool.and_eq_true, List.cons_append] at h ⊢
      exact ⟨h.1, ih h.2⟩

theorem listContains_append_left {pat a : List Char} (b : List Char)
    (h : listContains pat a = true) : listContains pat (a ++ b) = true := by
  induction a with
  | nil =>
    cases pat with
    | nil =>
      induction b with
      | nil => simp [listContains, List.isPrefixOf]
      | cons c cs ih => simp [listContains, List.isPrefixOf]
    | cons x xs => simp [listContains, List.isPrefixOf] at h
  | cons c cs ih =>
    simp only [listContains, Bool.or_eq_true, List.cons_append] at h ⊢
    rcases h with h | h
    · exact Or.inl (isPrefixOf_append _ h)
    · exact Or.inr (ih h)

theorem listContains_append_right {pat b : List Char} (a : List Char)
    (h : listContains pat b = true) : listContains pat (a ++ b) = true := by
  induction a with
  | nil => simpa using h
  | cons c cs ih =>
    simp only [listContains, Bool.or_eq_true, List.cons_append]
    exact Or.inr ih

theorem string_data_append (a b : String) : (a ++ b).data = a.data ++ b.data := by
  cases a
  cases b
  rfl

theorem strContains_append_left {a : String} (b : String) {pat : String}
    (h : strContains a pat = true) : strContains (a ++ b) pat = true := by
  unfold strContains at h ⊢
  rw [string_data_append]
  exact listContains_append_left _ h

theorem strContains_append_right (a : String) {b pat : String}
    (h : strContains b pat = true) : strContains (a ++ b) pat = true := by
  unfold strContains at h ⊢
  rw [string_data_append]
  exact listContains_append_right _ h

theorem string_append_ne_empty_of_right (a b : String) (h : b.data ≠ []) :
    a ++ b ≠ "" := by
  intro hc
  have : (a ++ b).data = [] := by rw [hc]
  rw [string_data_append] at this
  exact h (List.append_eq_nil.mp this).2

theorem vc_invalid : violation_code "Invalid offered price" = "SAFETY_VIOLATION" := by
  decide

theorem vc_floor : violation_code "Floor price violation" = "FLOOR_PRICE_VIOLATION" := by
  decide

theorem vc_margin :
    violation_code "Minimum profit margin violation" = "MIN_MARGIN_VIOLATION" := by
  decide

theorem sc_floor_code : strContains (strLower "FLOOR_PRICE_VIOLATION") "margin" = false := by
  decide

theorem sc_safety_code : strContains (strLower "SAFETY_VIOLATION") "margin" = false := by
  decide

theorem sc_margin_code : strContains (strLower "MIN_MARGIN_VIOLATION") "margin" = true := by
  decide

theorem sc_failure_recovery : strContains (strLower "FAILURE_RECOVERY") "margin" = false := by
  decide

theorem dlp_action (d : IntentAction) : (dlp_step d).action = d.action := by
  unfold dlp_step
  split <;> rfl

theorem dlp_price (d : IntentAction) : (dlp_step d).price = d.price := by
  unfold dlp_step
  split <;> rfl

theorem guard_validate_invalid_eval (settings : Option SafetySettings)
    (d : GuardDecision) (ctx : GuardContext)
    (hact : ¬(d.action ≠ .accept ∧ d.action ≠ .counter)) (hp : d.price ≤ 0) :
    guard_validate settings d ctx =
      { success := false, error := some "Invalid offered price",
        error_code := some "SAFETY_VIOLATION",
        safe_price := some (round2 (ctx.floor_price * (105/100))) } := by
  unfold guard_validate validate_decision
  rw [if_neg hact, if_pos hp]
  simp [vc_invalid, calculate_safe_price, sc_safety_code]

theorem guard_validate_floor_eval (settings : Option SafetySettings)
    (d : GuardDecision) (ctx : GuardContext)
    (hact : ¬(d.action ≠ .accept ∧ d.action ≠ .counter))
    (hpos : 0 < d.price) (hlt : d.price < ctx.floor_price) :
    guard_validate settings d ctx =
      { success := false, error := some "Floor price violation",
        error_code := some "FLOOR_PRICE_VIOLATION",
        safe_price := some (round2 (ctx.floor_price * (105/100))) } := by
  unfold guard_validate validate_decision
  rw [if_neg hact, if_neg (not_le.mpr hpos), if_pos hlt]
  simp [vc_floor, calculate_safe_price, sc_floor_code]

theorem guard_validate_margin_eval (s : SafetySettings)
    (d : GuardDecision) (ctx : GuardContext)
    (hact : ¬(d.action ≠ .accept ∧ d.action ≠ .counter))
    (hpos : 0 < d.price) (hge : ¬ d.price < ctx.floor_price)
    (hm : (d.price - ctx.internal_cost) / d.price < s.min_profit_margin)
    (hlt1 : s.min_profit_margin < 1) :
    guard_validate (some s) d ctx =
      { success := false, error := some "Minimum profit margin violation",
        error_code := some "MIN_MARGIN_VIOLATION",
        safe_price := some (round2 (ctx.floor_price / (1 - s.min_profit_margin))) } := by
  unfold guard_validate validate_decision
  rw [if_neg hact, if_neg (not_le.mpr hpos), if_neg hge]
  simp only [if_pos hm]
  simp [vc_margin, calculate_safe_price, sc_margin_code, not_le.mpr hlt1]

theorem inspect_outbound_guard_fail (settings : Option SafetySettings)
    (d : IntentAction) (ctx : HiveContextE) (gobs : GuardObs)
    (hne : ¬ d.action = .error)
    (hac : ¬(d.action ≠ .accept ∧ d.action ≠ .counter))
    (hg : guard_validate settings ⟨d.action, d.price⟩
      ⟨ctx.floor_price, ctx.internal_cost.getD ctx.floor_price⟩ = gobs)
    (hfail : gobs.success = false) :
    inspect_outbound settings true d ctx
      = override_with_safe_offer (dlp_step d)
          (gobs.safe_price.getD (ctx.floor_price * (105/100)))
          (gobs.error_code.getD "SAFETY_VIOLATION") := by
  have hac' : ¬((dlp_step d).action ≠ .accept ∧ (dlp_step d).action ≠ .counter) := by
    rw [dlp_action]; exact hac
  unfold inspect_outbound
  rw [if_neg hne]
  simp only [dlp_action, dlp_price, if_neg hac']
  rw [if_neg hac, if_neg (by simp : ¬ (true = false)), hg, if_pos hfail]

theorem inspect_outbound_skip (settings : Option SafetySettings) (registry : Bool)
    (d : IntentAction) (ctx : HiveContextE)
    (hne : ¬ d.action = .error)
    (hrj : d.action ≠ .accept ∧ d.action ≠ .counter) :
    inspect_outbound settings registry d ctx = dlp_step d := by
  have hrj' : (dlp_step d).action ≠ Action.accept ∧ (dlp_step d).action ≠ Action.counter := by
    rw [dlp_action]; exact hrj
  unfold inspect_outbound
  rw [if_neg hne, if_pos hrj']

theorem inspect_outbound_no_registry (settings : Option SafetySettings)
    (d : IntentAction) (ctx : HiveContextE)
    (hne : ¬ d.action = .error)
    (hac : ¬(d.action ≠ .accept ∧ d.action ≠ .counter)) :
    inspect_outbound settings false d ctx = dlp_step d := by
  have hac' : ¬((dlp_step d).action ≠ Action.accept ∧ (dlp_step d).action ≠ Action.counter) := by
    rw [dlp_action]; exact hac
  unfold inspect_outbound
  rw [if_neg hne]
  simp only [dlp_action, dlp_price, if_neg hac']
  rw [if_neg hac]
  simp

theorem inspect_outbound_guard_ok (settings : Option SafetySettings)
    (d : IntentAction) (ctx : HiveContextE)
    (hne : ¬ d.action = .error)
    (hac : ¬(d.action ≠ .accept ∧ d.action ≠ .counter))
    (hsucc : ¬ (guard_validate settings ⟨d.action, d.price⟩
      ⟨ctx.floor_price, ctx.internal_cost.getD ctx.floor_price⟩).success = false) :
    inspect_outbound settings true d ctx = dlp_step d := by
  have hac' : ¬((dlp_step d).action ≠ Action.accept ∧ (dlp_step d).action ≠ Action.counter) := by
    rw [dlp_action]; exact hac
  unfold inspect_outbound
  rw [if_neg hne]
  simp only [dlp_action, dlp_price, if_neg hac']
  rw [if_neg hac, if_neg (by simp : ¬ (true = false)), if_neg hsucc]

theorem override_thought_contains (orig : IntentAction) (sp : ℚ)
    (reason pat : String) (hth : orig.thought ≠ "")
    (h : strContains orig.thought pat = true) :
    strContains (override_with_safe_offer orig sp reason).thought pat = true := by
  unfold override_with_safe_offer
  simp only [if_neg hth]
  exact strContains_append_left _ (strContains_append_left _ h)

theorem verify_from_cons_no_match (cfg : ProviderCfg) (amt : ℚ)
    (memo curr : String) (now : ℤ) (hd : SigEntry) (tl : List SigEntry)
    (hm : matches_entry cfg amt memo curr hd = false) :
    verify_from cfg amt memo curr now (hd :: tl)
      = verify_from cfg amt memo curr now tl := by
  unfold matches_entry at hm
  cases htx : hd.tx with
  | none => simp [verify_from, htx]
  | some tx =>
    rw [htx] at hm
    replace hm : (check_match cfg tx amt memo curr).1 = false := hm
    simp [verify_from, htx, hm]

theorem verify_from_cons_match (cfg : ProviderCfg) (amt : ℚ)
    (memo curr : String) (now : ℤ) (hd : SigEntry) (tl : List SigEntry)
    (tx : SolTx) (htx : hd.tx = some tx)
    (hm : (check_match cfg tx amt memo curr).1 = true) :
    verify_from cfg amt memo curr now (hd :: tl)
      = some (get_proof tx hd.signature (check_match cfg tx amt memo curr).2 now) := by
  simp [verify_from, htx, hm]

theorem verify_from_none (cfg : ProviderCfg) (amt : ℚ) (memo curr : String)
    (now : ℤ) (entries : List SigEntry)
    (h : ∀ e ∈ entries, matches_entry cfg amt memo curr e = false) :
    verify_from cfg amt memo curr now entries = none := by
  induction entries with
  | nil => rfl
  | cons hd tl ih =>
    rw [verify_from_cons_no_match cfg amt memo curr now hd tl
      (h hd (List.mem_cons_self hd tl))]
    exact ih fun x hx => h x (List.mem_cons_of_mem _ hx)

theorem matches_entry_usdc : matches_entry cfgFix 850 "m8" "USDC" entryUsdc = true := by
  have hmemo : check_memo txUsdc "m8" = true := by decide
  have husdc : check_usdc cfgFix txUsdc 850 = (true, "SENDER") := by
    show check_usdc_go cfgFix 850 txUsdc.instructions = (true, "SENDER")
    show check_usdc_go cfgFix 850 [.memoInstr "m8",
      .tokenTransfer "ATA1" 850000000 (some "SENDER") "SRC"] = (true, "SENDER")
    simp only [check_usdc_go]
    rw [if_pos ⟨rfl, by norm_num [AMOUNT_TOLERANCE]⟩]
    rfl
  show (check_match cfgFix txUsdc 850 "m8" "USDC").1 = true
  unfold check_match
  rw [if_neg (by simp [hmemo]), if_neg (by decide : ¬ ("USDC" = "SOL")), husdc]

/-! Claim theorems. -/

/-- C1 counterexample: an accept decision priced at -5 is strictly below the
floor of 10, yet guard validation reports the generic SAFETY_VIOLATION code
(from the non-positive-price rule), not FLOOR_PRICE_VIOLATION as claimed. -/
theorem C1_counterexample :
    ((-5 : ℚ) < 10)
    ∧ (guard_validate (some ⟨1/10⟩) ⟨.accept, -5⟩
        { floor_price := 10, internal_cost := 10 }).success = false
    ∧ (guard_validate (some ⟨1/10⟩) ⟨.accept, -5⟩
        { floor_price := 10, internal_cost := 10 }).error_code
      ≠ some "FLOOR_PRICE_VIOLATION" := by
  have h := guard_validate_invalid_eval (some ⟨1/10⟩) ⟨.accept, -5⟩
    { floor_price := 10, internal_cost := 10 } (by simp) (by norm_num)
  refine ⟨by norm_num, ?_, ?_⟩ <;> rw [h] <;> simp

/-- C1 (amended: the price must also be strictly positive, otherwise the
earlier non-positive-price rule fires with code SAFETY_VIOLATION): for every
accept/counter decision with 0 < price < floor, guard validation fails with
code FLOOR_PRICE_VIOLATION and the outbound membrane replaces the decision
with a counter at floor*1.05 rounded to 2 decimals, recording the original
action, price and violation code in the override metadata. -/
theorem C1_floor_override (s : SafetySettings) (d : IntentAction) (ctx : HiveContextE)
    (hact : d.action = .accept ∨ d.action = .counter)
    (hpos : 0 < d.price) (hlt : d.price < ctx.floor_price) :
    (guard_validate (some s) ⟨d.action, d.price⟩
        ⟨ctx.floor_price, ctx.internal_cost.getD ctx.floor_price⟩).error_code
      = some "FLOOR_PRICE_VIOLATION"
    ∧ (inspect_outbound (some s) true d ctx).action = .counter
    ∧ (inspect_outbound (some s) true d ctx).price = round2 (ctx.floor_price * (105/100))
    ∧ (inspect_outbound (some s) true d ctx).metadata
      = some ⟨d.action, d.price, "FLOOR_PRICE_VIOLATION"⟩ := by
  have hact' : ¬(d.action ≠ Action.accept ∧ d.action ≠ Action.counter) := by
    rcases hact with h | h <;> simp [h]
  have hne : ¬ d.action = .error := by
    rcases hact with h | h <;> simp [h]
  have hg := guard_validate_floor_eval (some s) ⟨d.action, d.price⟩
    ⟨ctx.floor_price, ctx.internal_cost.getD ctx.floor_price⟩ hact' hpos hlt
  have hio := inspect_outbound_guard_fail (some s) d ctx _ hne hact' hg rfl
  refine ⟨by rw [hg], ?_, ?_, ?_⟩ <;> rw [hio]
  · rfl
  · simp [override_with_safe_offer, round2_idem]
  · simp [override_with_safe_offer, dlp_action, dlp_price]

/-- C1 witness: floor 100, accept at 80 is overridden to a counter at
round2(100*1.05). -/
theorem C1_witness :
    ((0 : ℚ) < 80) ∧ ((80 : ℚ) < 100)
    ∧ (inspect_outbound (some ⟨1/10⟩) true
        { action := .accept, price := 80, message := "deal" }
        { floor_price := 100, internal_cost := none }).price
      = round2 ((100 : ℚ) * (105/100)) :=
  ⟨by norm_num, by norm_num,
    (C1_floor_override ⟨1/10⟩
      { action := .accept, price := 80, message := "deal" }
      { floor_price := 100, internal_cost := none }
      (Or.inl rfl) (by norm_num) (by norm_num)).2.2.1⟩

/-- C2 counterexample: with a misconfigured minimum margin of 1.5, an accept
at 100 against floor 50 and internal cost 100 is a margin violation, but the
guard returns round2(50/0.9) = 55.56 (default margin fallback), not
floor/(1-minMargin) = -100 as the formula of the claim would give. -/
theorem C2_counterexample :
    (guard_validate (some ⟨3/2⟩) ⟨.accept, 100⟩
        { floor_price := 50, internal_cost := 100 }).error_code
      = some "MIN_MARGIN_VIOLATION"
    ∧ (guard_validate (some ⟨3/2⟩) ⟨.accept, 100⟩
        { floor_price := 50, internal_cost := 100 }).safe_price
      ≠ some (round2 ((50 : ℚ) / (1 - 3/2))) := by
  have hv : validate_decision (some ⟨3/2⟩) ⟨.accept, 100⟩
      { floor_price := 50, internal_cost := 100 }
      = .error "Minimum profit margin violation" := by
    unfold validate_decision
    rw [if_neg (by simp), if_neg (by norm_num), if_neg (by norm_num)]
    simp only []
    rw [if_pos (by norm_num)]
  have hs : calculate_safe_price (some ⟨3/2⟩)
      { floor_price := 50, internal_cost := 100 } "MIN_MARGIN_VIOLATION"
      = round2 ((50 : ℚ) / (1 - 1/10)) := by
    unfold calculate_safe_price
    rw [sc_margin_code]
    simp [DEFAULT_MIN_MARGIN, if_pos (by norm_num : (1 : ℚ) ≤ 3/2)]
  constructor
  · simp [guard_validate, hv, vc_margin]
  · simp only [guard_validate, hv, vc_margin, hs]
    have h1 : round2 ((50 : ℚ) / (1 - 1/10)) = 1389/25 := by
      norm_num [round2, round2Int]
    have h2 : round2 ((50 : ℚ) / (1 - 3/2)) = -100 := by
      norm_num [round2, round2Int]
    rw [h1, h2]
    simp
    norm_num

/-- C2 (amended: the configured minimum margin must be below 1.0 — otherwise
the guard substitutes the default margin 0.1 — and the price strictly
positive): for every accept/counter decision with price at or above the
floor but margin below the configured minimum, validation fails with code
MIN_MARGIN_VIOLATION and the replacement counter of the membrane is priced at
floor/(1-minMargin) rounded to 2 decimals. -/
theorem C2_margin_override (s : SafetySettings) (d : IntentAction) (ctx : HiveContextE)
    (hlt1 : s.min_profit_margin < 1)
    (hact : d.action = .accept ∨ d.action = .counter)
    (hpos : 0 < d.price) (hge : ctx.floor_price ≤ d.price)
    (hm : (d.price - ctx.internal_cost.getD ctx.floor_price) / d.price
      < s.min_profit_margin) :
    (guard_validate (some s) ⟨d.action, d.price⟩
        ⟨ctx.floor_price, ctx.internal_cost.getD ctx.floor_price⟩).error_code
      = some "MIN_MARGIN_VIOLATION"
    ∧ (inspect_outbound (some s) true d ctx).action = .counter
    ∧ (inspect_outbound (some s) true d ctx).price
      = round2 (ctx.floor_price / (1 - s.min_profit_margin))
    ∧ (inspect_outbound (some s) true d ctx).metadata
      = some ⟨d.action, d.price, "MIN_MARGIN_VIOLATION"⟩ := by
  have hact' : ¬(d.action ≠ Action.accept ∧ d.action ≠ Action.counter) := by
    rcases hact with h | h <;> simp [h]
  have hne : ¬ d.action = .error := by
    rcases hact with h | h <;> simp [h]
  have hg := guard_validate_margin_eval s ⟨d.action, d.price⟩
    ⟨ctx.floor_price, ctx.internal_cost.getD ctx.floor_price⟩ hact' hpos
    (not_lt.mpr hge) hm hlt1
  have hio := inspect_outbound_guard_fail (some s) d ctx _ hne hact' hg rfl
  refine ⟨by rw [hg], ?_, ?_, ?_⟩ <;> rw [hio]
  · rfl
  · simp [override_with_safe_offer, round2_idem]
  · simp [override_with_safe_offer, dlp_action, dlp_price]

/-- C2 witness: floor 80, cost 90, min margin 0.25: accepting at 100 gives
margin 0.1 < 0.25 and the membrane counters at round2(80/0.75). -/
theorem C2_witness :
    ((1/4 : ℚ) < 1) ∧ ((0 : ℚ) < 100) ∧ ((80 : ℚ) ≤ 100)
    ∧ (((100 : ℚ) - 90) / 100 < 1/4)
    ∧ (inspect_outbound (some ⟨1/4⟩) true
        { action := .accept, price := 100, message := "deal" }
        { floor_price := 80, internal_cost := some 90 }).price
      = round2 ((80 : ℚ) / (1 - 1/4)) :=
  ⟨by norm_num, by norm_num, by norm_num, by norm_num,
    (C2_margin_override ⟨1/4⟩
      { action := .accept, price := 100, message := "deal" }
      { floor_price := 80, internal_cost := some 90 }
      (by norm_num) (Or.inl rfl) (by norm_num) (by norm_num) (by norm_num)).2.2.1⟩

/-- C3 counterexample: with the minimum margin misconfigured to 1.5, the
margin-violation safe price for floor 100 is round2(100/(1-0.1)) = 111.11,
not the rule-3 price round2(100*1.05) = 105 as claimed. -/
theorem C3_counterexample :
    calculate_safe_price (some ⟨3/2⟩) { floor_price := 100, internal_cost := 0 }
      "MIN_MARGIN_VIOLATION"
      ≠ round2 ((100 : ℚ) * (105/100)) := by
  have h1 : calculate_safe_price (some ⟨3/2⟩)
      { floor_price := 100, internal_cost := 0 } "MIN_MARGIN_VIOLATION"
      = round2 ((100 : ℚ) / (1 - 1/10)) := by
    unfold calculate_safe_price
    rw [sc_margin_code]
    simp [DEFAULT_MIN_MARGIN, if_pos (by norm_num : (1 : ℚ) ≤ 3/2)]
  rw [h1]
  have h2 : round2 ((100 : ℚ) / (1 - 1/10)) = 11111/100 := by
    norm_num [round2, round2Int]
  have h3 : round2 ((100 : ℚ) * (105/100)) = 105 := by
    norm_num [round2, round2Int]
  rw [h2, h3]
  norm_num

/-- C3 (amended): when the configured minimum margin is at least 1.0, the
margin-violation safe price falls back to the DEFAULT minimum margin 0.1 —
i.e. floor/(1-0.1) rounded to 2 decimals — not to the rule-3 price
floor*1.05. -/
theorem C3_margin_misconfigured (s : SafetySettings) (ctx : GuardContext)
    (reason : String) (h1 : 1 ≤ s.min_profit_margin)
    (h2 : strContains (strLower reason) "margin" = true) :
    calculate_safe_price (some s) ctx reason
      = round2 (ctx.floor_price / (1 - DEFAULT_MIN_MARGIN)) := by
  unfold calculate_safe_price
  rw [h2]
  simp [if_pos h1]

/-- C3 witness: min margin 1.5, floor 100 gives safe price 111.11. -/
theorem C3_witness :
    ((1 : ℚ) ≤ 3/2)
    ∧ strContains (strLower "MIN_MARGIN_VIOLATION") "margin" = true
    ∧ calculate_safe_price (some ⟨3/2⟩) { floor_price := 100, internal_cost := 0 }
        "MIN_MARGIN_VIOLATION" = 11111/100 := by
  refine ⟨by norm_num, by decide, ?_⟩
  rw [C3_margin_misconfigured ⟨3/2⟩
    { floor_price := 100, internal_cost := 0 } "MIN_MARGIN_VIOLATION"
    (by norm_num) (by decide)]
  norm_num [round2, round2Int, DEFAULT_MIN_MARGIN]

/-- C9 counterexample: a zero-priced accept decision fails validation, but
the reported code is SAFETY_VIOLATION, not INVALID_PRICE — the guard skill
never produces a code named INVALID_PRICE. -/
theorem C9_counterexample :
    (guard_validate (some ⟨1/10⟩) ⟨.accept, 0⟩
        { floor_price := 10, internal_cost := 5 }).success = false
    ∧ (guard_validate (some ⟨1/10⟩) ⟨.accept, 0⟩
        { floor_price := 10, internal_cost := 5 }).error_code
      ≠ some "INVALID_PRICE" := by
  have h := guard_validate_invalid_eval (some ⟨1/10⟩) ⟨.accept, 0⟩
    { floor_price := 10, internal_cost := 5 } (by simp) (by norm_num)
  refine ⟨?_, ?_⟩ <;> rw [h] <;> simp

/-- C9 (amended): for every accept/counter decision with non-positive price,
guard validation fails with the exception text "Invalid offered price" and
the guard capability reports the generic code SAFETY_VIOLATION (the message
mentions neither floor nor margin). -/
theorem C9_invalid_price (settings : Option SafetySettings)
    (d : GuardDecision) (ctx : GuardContext)
    (hact : d.action = .accept ∨ d.action = .counter) (hp : d.price ≤ 0) :
    (guard_validate settings d ctx).success = false
    ∧ (guard_validate settings d ctx).error = some "Invalid offered price"
    ∧ (guard_validate settings d ctx).error_code = some "SAFETY_VIOLATION" := by
  have hact' : ¬(d.action ≠ Action.accept ∧ d.action ≠ Action.counter) := by
    rcases hact with h | h <;> simp [h]
  rw [guard_validate_invalid_eval settings d ctx hact' hp]
  exact ⟨rfl, rfl, rfl⟩

/-- C9 witness: a counter at price -3 reports SAFETY_VIOLATION. -/
theorem C9_witness :
    ((-3 : ℚ) ≤ 0)
    ∧ (guard_validate none ⟨.counter, -3⟩
        { floor_price := 7, internal_cost := 2 }).error_code
      = some "SAFETY_VIOLATION" :=
  ⟨by norm_num,
    (C9_invalid_price none ⟨.counter, -3⟩ { floor_price := 7, internal_cost := 2 }
      (Or.inr rfl) (by norm_num)).2.2⟩

/-- C4: check_status moves a deal from PENDING to EXPIRED exactly when it is
called strictly after the expiry time while the deal is still PENDING, and a
deal already PAID or EXPIRED is never changed by check_status. -/
theorem C4_check_status_state_machine (d : Deal) (now : ℤ) (pm : Bool) :
    ((d.status = .pending
        ∧ ((check_status (some d) now pm).1.map Deal.status) = some .expired)
      ↔ (d.status = .pending ∧ d.expires_at < now))
    ∧ ((d.status = .paid ∨ d.status = .expired) →
        (check_status (some d) now pm).1 = some d) := by
  obtain ⟨st, exp⟩ := d
  cases st <;> by_cases hnow : exp < now <;> cases pm <;>
    simp [check_status, hnow, gt_iff_lt]

/-- C4 witness: a PAID deal is left untouched by check_status. -/
theorem C4_witness :
    (check_status (some ⟨.paid, 50⟩) 100 true).1 = some ⟨.paid, 50⟩ :=
  (C4_check_status_state_machine ⟨.paid, 50⟩ 100 true).2 (Or.inl rfl)

/-- C5: when the reasoning provider fails (throws or reports failure), the
transformer degrades to a FailureIntent with action error, and the outbound
membrane — with or without a registry — replaces it with a counter decision
at the guard safe price round2(floor*1.05), tagged FAILURE_RECOVERY,
before the connector stage runs. -/
theorem C5_reasoning_failure (settings : Option SafetySettings) (registry : Bool)
    (ctx : HiveContextE) (e : String) :
    think (Except.error e) = FailureIntent e
    ∧ (inspect_outbound settings registry (think (Except.error e)) ctx).action
      = .counter
    ∧ (inspect_outbound settings registry (think (Except.error e)) ctx).price
      = round2 (ctx.floor_price * (105/100))
    ∧ (inspect_outbound settings registry (think (Except.error e)) ctx).metadata
      = some ⟨.error, 0, "FAILURE_RECOVERY"⟩ := by
  have h : inspect_outbound settings registry (think (Except.error e)) ctx
      = override_with_safe_offer (FailureIntent e)
          (if registry then round2 (ctx.floor_price * (105/100))
           else ctx.floor_price * (105/100)) "FAILURE_RECOVERY" := by
    show inspect_outbound settings registry (FailureIntent e) ctx = _
    cases registry <;> rfl
  refine ⟨rfl, ?_, ?_, ?_⟩ <;> rw [h]
  · rfl
  · show round2 (if registry then round2 (ctx.floor_price * (105/100))
      else ctx.floor_price * (105/100)) = _
    cases registry
    · rfl
    · exact round2_idem _
  · rfl

/-- C8 counterexample: the floor price is 100 and its literal value "100"
appears in the message text, yet the membrane returns the decision
completely unchanged — the DLP rule only looks for the token "floor_price",
not for the floor-price value. -/
theorem C8_counterexample :
    strContains "Our floor is 100, final." "100" = true
    ∧ inspect_outbound (some ⟨1/10⟩) true
        { action := .reject, price := 0, message := "Our floor is 100, final.",
          thought := "t" }
        { floor_price := 100, internal_cost := none }
      = { action := .reject, price := 0, message := "Our floor is 100, final.",
          thought := "t" } := by
  constructor
  · decide
  · have h := inspect_outbound_skip (some ⟨1/10⟩) true
      { action := .reject, price := 0, message := "Our floor is 100, final.",
        thought := "t" }
      { floor_price := 100, internal_cost := none }
      (by simp) (by simp)
    rw [h]
    unfold dlp_step
    rw [if_neg (by decide)]

/-- C8 (amended: the DLP trigger is the literal token "floor_price" in the
message, case-insensitively, not the floor-price value): for every non-error
decision whose message contains "floor_price", the membrane output carries
the audit note "[MEMBRANE: DLP block]" in its rationale whatever the price
checks decide, and for reject/ui_required decisions the output is exactly
the decision with its message replaced by the fixed refusal and the audit
note appended. -/
theorem C8_dlp_token (settings : Option SafetySettings) (registry : Bool)
    (d : IntentAction) (ctx : HiveContextE)
    (hne : ¬ d.action = .error)
    (hmsg : strContains (strLower d.message) "floor_price" = true) :
    strContains (inspect_outbound settings registry d ctx).thought
      "[MEMBRANE: DLP block]" = true
    ∧ ((d.action = .reject ∨ d.action = .ui_required) →
        inspect_outbound settings registry d ctx
          = { d with message := "I cannot disclose internal pricing details.",
                     thought := d.thought ++ " [MEMBRANE: DLP block]" }) := by
  have hdlp : dlp_step d
      = { d with message := "I cannot disclose internal pricing details.",
                 thought := d.thought ++ " [MEMBRANE: DLP block]" } := by
    unfold dlp_step
    rw [if_pos hmsg]
  have hnote : strContains (d.thought ++ " [MEMBRANE: DLP block]")
      "[MEMBRANE: DLP block]" = true :=
    strContains_append_right _ (by decide)
  have hth : d.thought ++ " [MEMBRANE: DLP block]" ≠ "" :=
    string_append_ne_empty_of_right _ _ (by decide)
  by_cases hrj : d.action ≠ Action.accept ∧ d.action ≠ Action.counter
  · have hres := inspect_outbound_skip settings registry d ctx hne hrj
    rw [hres, hdlp]
    exact ⟨hnote, fun _ => rfl⟩
  · constructor
    · cases hreg : registry with
      | false =>
        rw [inspect_outbound_no_registry settings d ctx hne hrj, hdlp]
        exact hnote
      | true =>
        by_cases hs : (guard_validate settings ⟨d.action, d.price⟩
            ⟨ctx.floor_price, ctx.internal_cost.getD ctx.floor_price⟩).success = false
        · rw [inspect_outbound_guard_fail settings d ctx _ hne hrj rfl hs]
          refine override_thought_contains _ _ _ _ ?_ ?_
          · rw [hdlp]
            exact hth
          · rw [hdlp]
            exact hnote
        · rw [inspect_outbound_guard_ok settings d ctx hne hrj hs, hdlp]
          exact hnote
    · intro hda
      exfalso
      rcases hda with h | h <;> rw [h] at hrj <;> simp at hrj

/-- C8 witness: a reject whose message leaks the token "floor_price" is
returned with the fixed refusal message and the audit note. -/
theorem C8_witness :
    strContains (strLower "the floor_price is secret") "floor_price" = true
    ∧ inspect_outbound none false
        { action := .reject, price := 5, message := "the floor_price is secret",
          thought := "t" }
        { floor_price := 100, internal_cost := none }
      = { action := .reject, price := 5,
          message := "I cannot disclose internal pricing details.",
          thought := "t" ++ " [MEMBRANE: DLP block]" } :=
  ⟨by decide,
    (C8_dlp_token none false
      { action := .reject, price := 5, message := "the floor_price is secret",
        thought := "t" }
      { floor_price := 100, internal_cost := none }
      (by simp) (by decide)).2 (Or.inl rfl)⟩

/-- C6 counterexample: an error raised inside the connector stage propagates
out of MetabolicLoop.execute unchanged — there is no try/except at the
pipeline boundary turning it into a failed Observation. -/
theorem C6_counterexample :
    loop_execute (fun s : Unit => Except.ok s) (fun _ : Unit => Except.ok ())
      (Except.ok ()) (fun (c : Unit) (_ : Unit) => c)
      (fun _ => Except.ok { action := .accept, price := 100, message := "ok" })
      (fun d _ => Except.ok d)
      (fun _ _ => Except.error "connector exploded")
      (fun _ => Except.ok ())
      () = Except.error "connector exploded" := rfl

/-- C6 (amended): the conversion of thrown errors into failed Observations
happens in SkillRegistry.execute — any skill whose call raises is reported
as a failed Observation carrying the error text — while MetabolicLoop.execute
itself catches nothing, so an error thrown directly by the reasoning or
connector stage reaches the caller of the pipeline (which handles it at the gRPC
layer). -/
theorem C6_registry_catches (π : Type)
    (skills : List (String × (String → π → Except String Observation)))
    (nm intent : String) (params : π)
    (f : String → π → Except String Observation) (e : String)
    (hf : skills.lookup nm = some f) (he : f intent params = Except.error e) :
    registry_execute skills nm intent params
      = { success := false, error := some e, event_type := "" } := by
  simp only [registry_execute, hf, he]

/-- C6 witness: a skill that raises "kaput" is reported as a failed
Observation by the registry. -/
theorem C6_witness :
    registry_execute
      [("boom", fun (_ : String) (_ : Unit) =>
        (Except.error "kaput" : Except String Observation))] "boom" "go" ()
      = { success := false, error := some "kaput", event_type := "" } :=
  C6_registry_catches Unit
    [("boom", fun (_ : String) (_ : Unit) =>
      (Except.error "kaput" : Except String Observation))]
    "boom" "go" () _ "kaput" rfl rfl

/-- C7: over the fetched signature list, if exactly one entry matches (memo
instruction equal to the expected memo, correct destination, amount within
tolerance, per _check_match), the verifier returns a proof whose transaction
hash is the signature of that entry; if no entry matches it returns none rather
than an error. -/
theorem C7_payment_match (cfg : ProviderCfg) (amt : ℚ) (memo curr : String)
    (now : ℤ) (entries : List SigEntry) :
    (entries.filter (matches_entry cfg amt memo curr) = [] →
      verify_from cfg amt memo curr now entries = none)
    ∧ (∀ e : SigEntry, entries.filter (matches_entry cfg amt memo curr) = [e] →
      (verify_from cfg amt memo curr now entries).map PaymentProof.transaction_hash
        = some e.signature) := by
  induction entries with
  | nil =>
    refine ⟨fun _ => rfl, fun e h => ?_⟩
    simp at h
  | cons hd tl ih =>
    by_cases hm : matches_entry cfg amt memo curr hd = true
    · constructor
      · intro h
        rw [List.filter_cons_of_pos hm] at h
        simp at h
      · intro e h
        rw [List.filter_cons_of_pos hm] at h
        rw [List.cons_eq_cons] at h
        obtain ⟨h1, _⟩ := h
        unfold matches_entry at hm
        cases htx : hd.tx with
        | none =>
          rw [htx] at hm
          simp at hm
        | some tx =>
          rw [htx] at hm
          replace hm : (check_match cfg tx amt memo curr).1 = true := hm
          rw [verify_from_cons_match cfg amt memo curr now hd tl tx htx hm, ← h1]
          rfl
    · replace hm : matches_entry cfg amt memo curr hd = false := by
        rwa [Bool.not_eq_true] at hm
      have hskip := verify_from_cons_no_match cfg amt memo curr now hd tl hm
      have hfil : (hd :: tl).filter (matches_entry cfg amt memo curr)
          = tl.filter (matches_entry cfg amt memo curr) :=
        List.filter_cons_of_neg (by simp [hm])
      constructor
      · intro h
        rw [hfil] at h
        rw [hskip]
        exact ih.1 h
      · intro e h
        rw [hfil] at h
        rw [hskip]
        exact ih.2 e h

/-- C7 witness: a singleton signature list holding a USDC transfer with memo
"m8", destination "ATA1" and amount exactly 850 yields a proof referencing
"sigA". -/
theorem C7_witness :
    ([entryUsdc].filter (matches_entry cfgFix 850 "m8" "USDC") = [entryUsdc])
    ∧ (verify_from cfgFix 850 "m8" "USDC" 123 [entryUsdc]).map
        PaymentProof.transaction_hash = some "sigA" :=
  ⟨by simp [List.filter, matches_entry_usdc],
    (C7_payment_match cfgFix 850 "m8" "USDC" 123 [entryUsdc]).2 entryUsdc
      (by simp [List.filter, matches_entry_usdc])⟩

/-- C10: verify_payment inspects only the SIGNATURE_LIMIT = 20 most recent
signatures for the receiving address; whenever none of those 20 match, the
result is none, regardless of any matching transaction deeper in the
history. -/
theorem C10_signature_limit (cfg : ProviderCfg) (amt : ℚ) (memo curr : String)
    (now : ℤ) (chain : List SigEntry) :
    verify_payment cfg amt memo curr now chain
      = verify_from cfg amt memo curr now (chain.take SIGNATURE_LIMIT)
    ∧ ((∀ e ∈ chain.take SIGNATURE_LIMIT, matches_entry cfg amt memo curr e = false) →
      verify_payment cfg amt memo curr now chain = none) :=
  ⟨rfl, fun h => verify_from_none cfg amt memo curr now _ h⟩

/-- C10 witness: a fully matching payment sitting behind 20 newer
signatures is never found — verify_payment returns none even though the
21st entry matches. -/
theorem C10_witness :
    matches_entry cfgFix 850 "m8" "USDC" entryUsdc = true
    ∧ verify_payment cfgFix 850 "m8" "USDC" 123
        (List.replicate 20 entryStale ++ [entryUsdc]) = none := by
  have htake : (List.replicate 20 entryStale ++ [entryUsdc]).take SIGNATURE_LIMIT
      = List.replicate 20 entryStale := by
    simp [SIGNATURE_LIMIT]
  refine ⟨matches_entry_usdc, ?_⟩
  refine (C10_signature_limit cfgFix 850 "m8" "USDC" 123
    (List.replicate 20 entryStale ++ [entryUsdc])).2 ?_
  intro e he
  rw [htake] at he
  rw [List.eq_of_mem_replicate he]
  rfl

end Aura
